import Mathlib

/-!
Verification of the Fluxa event-ingestion pipeline (Go sources) against its
natural-language specification.  The Go code is shallowly embedded: database
tables become finite-support functions, instants become integers counting
nanoseconds, and every external effect (S3, SQS, SHA-256, JSON codecs) is a
parameter of the embedded function so that the control flow of the Go source
is preserved exactly.

The repository contains two generations of some components (an older revision
at the canonical path and the revision shipped in release v1.1.0).  Each
definition's doc comment names the exact source it was translated from.
-/

namespace Fluxa

/-- Idempotency ledger status, mirroring `models.IdempotencyStatus` in
`internal/models/sqs_message.go`: one of processing, success, failed. -/
inductive IdempotencyStatus
  | processing
  | success
  | failed
  deriving DecidableEq, Repr

/-- One row of the `idempotency_keys` table, mirroring
`models.IdempotencyKeyRecord` (`internal/models/sqs_message.go`).  Instants
are integers (UTC nanoseconds). -/
structure LedgerEntry where
  status : IdempotencyStatus
  firstSeenAt : Int
  lastSeenAt : Int
  attempts : Nat
  errorReason : Option String
  deriving DecidableEq, Repr

/-- The `idempotency_keys` table, keyed by `event_id`. -/
def Ledger := String → Option LedgerEntry

/-- Table with no rows. -/
def emptyLedger : Ledger := fun _ => none

/-- Point update of the ledger at one key (an SQL INSERT or UPDATE of the
single row whose `event_id` matches). -/
def Ledger.set (l : Ledger) (eventID : String) (ent : LedgerEntry) : Ledger :=
  fun k => if k = eventID then some ent else l k

/-- Status projection (`SELECT status FROM idempotency_keys WHERE event_id = $1`). -/
def statusOf (l : Ledger) (eventID : String) : Option IdempotencyStatus :=
  (l eventID).map (fun ent => ent.status)

/-- Liveness window of the claim primitive: `1 * time.Minute` in nanoseconds. -/
def livenessWindowNs : Int := 60 * 1000000000

/-- Embeds `Client.CheckAndMark` from the v1.1.0 revision of
`internal/idempotency/idempotency.go` (the ledger variant with the 60 s
liveness window, shipped alongside `internal/db/db.go`; the spec adopts this
variant).  The Go function runs in one serializable transaction:
absent row → insert `(processing, now, now, attempts=1)` and return false;
status success → commit unchanged, return true; status processing with
`now - last_seen_at < 1 min` → commit unchanged, return true; otherwise
(failed, or stale processing) → set `(processing, last_seen_at=now,
attempts+1)` and return false.  The bounded 3-attempt insert-race loop only
re-runs after a concurrent duplicate insert, which cannot happen in this
sequential model, so it collapses to the single pass. -/
def checkAndMark (l : Ledger) (eventID : String) (now : Int) : Bool × Ledger :=
  match l eventID with
  | none =>
      (false, l.set eventID ⟨.processing, now, now, 1, none⟩)
  | some ent =>
      if ent.status = .success then
        (true, l)
      else if ent.status = .processing ∧ now - ent.lastSeenAt < livenessWindowNs then
        (true, l)
      else
        (false, l.set eventID
          { ent with status := .processing, lastSeenAt := now, attempts := ent.attempts + 1 })

/-- Embeds `Client.CheckAndMark` from the older revision of
`internal/idempotency/idempotency.go` (no liveness window): absent row →
insert processing, return false; status success → update `last_seen_at`
only, return true; otherwise → set `(processing, last_seen_at=now,
attempts+1)`, return false. -/
def checkAndMarkV1 (l : Ledger) (eventID : String) (now : Int) : Bool × Ledger :=
  match l eventID with
  | none =>
      (false, l.set eventID ⟨.processing, now, now, 1, none⟩)
  | some ent =>
      if ent.status = .success then
        (true, l.set eventID { ent with lastSeenAt := now })
      else
        (false, l.set eventID
          { ent with status := .processing, lastSeenAt := now, attempts := ent.attempts + 1 })

/-- Embeds `Client.MarkSuccess` (identical in both revisions of
`internal/idempotency/idempotency.go`):
`UPDATE idempotency_keys SET status='success', last_seen_at=now WHERE
event_id = $1`.  A zero-row match is not an error in Go, so the table is
returned unchanged when the key is absent. -/
def markSuccess (l : Ledger) (eventID : String) (now : Int) : Ledger :=
  match l eventID with
  | none => l
  | some ent => l.set eventID { ent with status := .success, lastSeenAt := now }

/-- Truncation of the error reason to 500 characters, from `MarkFailed`
(`if len(errorReason) > 500 { errorReason = errorReason[:500] }`). -/
def truncateReason (r : String) : String :=
  if r.length > 500 then ⟨r.data.take 500⟩ else r

/-- Embeds `Client.MarkFailed` (identical in both revisions of
`internal/idempotency/idempotency.go`): truncate the reason, then
`UPDATE idempotency_keys SET status='failed', last_seen_at=now,
error_reason=$3 WHERE event_id = $4`.  A zero-row match is not an error. -/
def markFailed (l : Ledger) (eventID : String) (errorReason : String) (now : Int) : Ledger :=
  match l eventID with
  | none => l
  | some ent =>
      l.set eventID
        { ent with status := .failed, lastSeenAt := now,
                   errorReason := some (truncateReason errorReason) }

/-- Runs a sequence of claim calls (one per time instant in `ts`) through a
given claim primitive, threading the table, and reports whether every call
returned already-done (`true`). -/
def claimsAllWith (claim : Ledger → String → Int → Bool × Ledger)
    (l : Ledger) (eventID : String) : List Int → Bool
  | [] => true
  | t :: ts =>
      (claim l eventID t).fst && claimsAllWith claim ((claim l eventID t).snd) eventID ts

/-- One invocation of a ledger primitive for a fixed event, tagged with the
instant at which it runs: claim = `CheckAndMark`, commitSuccess =
`MarkSuccess`, commitFailed = `MarkFailed`. -/
inductive LedgerOp
  | claim (now : Int)
  | commitSuccess (now : Int)
  | commitFailed (reason : String) (now : Int)
  deriving DecidableEq, Repr

/-- Effect of one ledger primitive on the table (current `CheckAndMark`
revision for claims). -/
def applyOp (l : Ledger) (eventID : String) : LedgerOp → Ledger
  | .claim now => (checkAndMark l eventID now).snd
  | .commitSuccess now => markSuccess l eventID now
  | .commitFailed reason now => markFailed l eventID reason now

/-- Status of the entry after each operation of a sequence. -/
def statusTrace (l : Ledger) (eventID : String) : List LedgerOp → List (Option IdempotencyStatus)
  | [] => []
  | op :: ops =>
      statusOf (applyOp l eventID op) eventID :: statusTrace (applyOp l eventID op) eventID ops

/-- Whether an operation is a commit primitive. -/
def isCommit : LedgerOp → Bool
  | .claim _ => false
  | .commitSuccess _ => true
  | .commitFailed _ _ => true

/-- The processor protocol: commit primitives are only ever issued while the
entry is `processing` (a commit always follows a claim that returned
fresh/retry and precedes any later status change). -/
def protocolOk (l : Ledger) (eventID : String) : List LedgerOp → Bool
  | [] => true
  | op :: ops =>
      (!(isCommit op) || decide (statusOf l eventID = some .processing)) &&
        protocolOk (applyOp l eventID op) eventID ops

/-- The allowed status transitions named by the claim — empty→processing,
processing→processing, processing→success, processing→failed,
failed→processing — together with the trivial no-change step (an operation
that leaves the row's status untouched is not a transition). -/
def AllowedStep (a b : Option IdempotencyStatus) : Prop :=
  a = b ∨
    (a = none ∧ b = some .processing) ∨
    (a = some .processing ∧ b = some .processing) ∨
    (a = some .processing ∧ b = some .success) ∨
    (a = some .processing ∧ b = some .failed) ∨
    (a = some .failed ∧ b = some .processing)

instance (a b : Option IdempotencyStatus) : Decidable (AllowedStep a b) := by
  unfold AllowedStep; infer_instance

/-- Transaction event, mirroring `models.Event`.  Decimal amounts are
modelled as rationals (float64 rounding/NaN behaviour is out of scope), the
timestamp is an integer instant whose Go zero value is `0`, and the metadata
map is a key-value list whose keys are pairwise distinct, so the Go
`len(e.Metadata)` is the list length. -/
structure Event where
  eventID : String
  userID : String
  amount : Rat
  currency : String
  merchant : String
  timestamp : Int
  metadata : List (String × String)
  deriving DecidableEq, Repr

/-- Validation error, mirroring `models.ErrInvalidEvent` (v1.1.0 revision,
with the machine-readable code). -/
structure ErrInvalidEvent where
  invalidField : String
  reason : String
  code : String
  deriving DecidableEq, Repr

/-- Rendering of `ErrInvalidEvent.Error()`:
`"invalid event: [" + Code + "] " + Field + " " + Reason`. -/
def ErrInvalidEvent.message (e : ErrInvalidEvent) : String :=
  "invalid event: [" ++ e.code ++ "] " ++ e.invalidField ++ " " ++ e.reason

/-- Error code `MISSING_FIELD`. -/
def errCodeMissingField : String := "MISSING_FIELD"

/-- Error code `INVALID_VALUE`. -/
def errCodeInvalidValue : String := "INVALID_VALUE"

/-- Five minutes in nanoseconds (`5 * time.Minute`). -/
def fiveMinutesNs : Int := 300 * 1000000000

/-- Embeds `Event.Validate` from the v1.1.0 revision of
`internal/models/event.go` (the variant exercised by `TestEvent_Validate`):
non-empty `user_id`, `amount > 0`, non-empty `currency` and `merchant`,
timestamp set, timestamp not after `now + 5min`, and at most 10 metadata
keys.  The older revision at the canonical path omits the last two checks. -/
def Event.validate (e : Event) (now : Int) : Option ErrInvalidEvent :=
  if e.userID = "" then some ⟨"user_id", "cannot be empty", errCodeMissingField⟩
  else if e.amount ≤ 0 then some ⟨"amount", "must be greater than 0", errCodeInvalidValue⟩
  else if e.currency = "" then some ⟨"currency", "cannot be empty", errCodeMissingField⟩
  else if e.merchant = "" then some ⟨"merchant", "cannot be empty", errCodeMissingField⟩
  else if e.timestamp = 0 then some ⟨"timestamp", "must be set", errCodeMissingField⟩
  else if now + fiveMinutesNs < e.timestamp then
    some ⟨"timestamp", "cannot be in the future", errCodeInvalidValue⟩
  else if e.metadata.length > 10 then
    some ⟨"metadata", "too many keys (max 10)", errCodeInvalidValue⟩
  else none

/-- Raw payload bytes (`[]byte`). -/
abbrev Bytes := List Nat

/-- Payload disposition constant `models.PayloadModeInline`. -/
def payloadModeInline : String := "INLINE"

/-- Payload disposition constant `models.PayloadModeS3`. -/
def payloadModeS3 : String := "S3"

/-- Queue message, mirroring `models.SQSEventMessage`
(`internal/models/sqs_message.go`).  `PayloadMode` is a string in Go, so it
is a string here (messages can carry an unknown disposition). -/
structure SQSEventMessage where
  eventID : String
  correlationID : String
  payloadMode : String
  payloadInline : Option Bytes
  payloadSHA256 : String
  s3Bucket : Option String
  s3Key : Option String
  receivedAt : Int
  deriving DecidableEq, Repr

/-- Threshold constant `maxPayloadSizeBytes = 256 * 1024` from
`internal/queue/sqs.go`. -/
def maxPayloadSizeBytes : Nat := 256 * 1024

/-- Embeds `queue.ShouldUseS3`: `payloadSize > maxPayloadSizeBytes`. -/
def ShouldUseS3 (payloadSize : Nat) : Bool := payloadSize > maxPayloadSizeBytes

/-- The SQS send request built by `queue.Client.SendEventMessage`
(`internal/queue/sqs.go`): the JSON-marshalled message as the body (the
marshalling itself is kept abstract, so the body is the message value) plus
the two string message attributes `correlation_id` and `event_id`. -/
structure SendMessageInput where
  queueURL : String
  messageBody : SQSEventMessage
  messageAttributes : List (String × String)
  deriving DecidableEq, Repr

/-- Embeds `queue.Client.SendEventMessage`. -/
def SendEventMessage (queueURL : String) (msg : SQSEventMessage) : SendMessageInput :=
  { queueURL := queueURL
    messageBody := msg
    messageAttributes :=
      [("correlation_id", msg.correlationID), ("event_id", msg.eventID)] }

/-- One row of the `events` table, mirroring the column list of
`db.Client.InsertEvent` (`internal/db/db.go`); the metadata JSON string is
kept as the key-value list it marshals. -/
structure EventRow where
  eventID : String
  correlationID : String
  userID : String
  amount : Rat
  currency : String
  merchant : String
  ts : Int
  metadata : List (String × String)
  payloadMode : String
  s3Key : Option String
  createdAt : Int
  deriving DecidableEq, Repr

/-- The `events` table, keyed by its `event_id` primary key. -/
def EventsTable := String → Option EventRow

/-- Table with no rows. -/
def emptyEvents : EventsTable := fun _ => none

/-- Embeds `db.Client.InsertEvent`: an INSERT with
`ON CONFLICT (event_id) DO NOTHING`, so an existing row wins and the table
is unchanged. -/
def insertEvent (tbl : EventsTable) (e : Event) (correlationID : String)
    (payloadMode : String) (s3Key : Option String) (now : Int) : EventsTable :=
  match tbl e.eventID with
  | some _ => tbl
  | none =>
      fun k =>
        if k = e.eventID then
          some ⟨e.eventID, correlationID, e.userID, e.amount, e.currency, e.merchant,
                e.timestamp, e.metadata, payloadMode, s3Key, now⟩
        else tbl k

/-- Failure of the payload-materialization step shared by both processor
revisions (step 2 of `process` / the fetch-payload switch of
`processMessage`). -/
inductive PayloadErr
  | missingPayload
  | missingS3Key
  | invalidPayloadMode
  | s3FetchFailed
  deriving DecidableEq, Repr

/-- Poison/retry reason string attached to each payload failure in the Go
sources. -/
def PayloadErr.reason : PayloadErr → String
  | .missingPayload => "missing_payload"
  | .missingS3Key => "missing_s3_key"
  | .invalidPayloadMode => "invalid_payload_mode"
  | .s3FetchFailed => "s3_fetch_failed"

/-- Whether the payload failure is retriable (only the S3 fetch error is). -/
def PayloadErr.retriable : PayloadErr → Bool
  | .s3FetchFailed => true
  | _ => false

/-- External collaborators of the processor, abstracted as functions: the
blob store (`none` = fetch error, treated as transient), the SHA-256 hex
digest, and the JSON event decoder (`none` = unmarshal error).  `now` is the
wall clock of the invocation. -/
structure ProcEnv where
  s3Get : String → Option Bytes
  sha256Hex : Bytes → String
  parseEvent : Bytes → Option Event
  now : Int

/-- Relational-store state seen by the processor. -/
structure ProcState where
  ledger : Ledger
  events : EventsTable

/-- Embeds the payload-materialization switch on `PayloadMode` (identical in
`internal/processor/processor.go` and `cmd/processor/main.go`): INLINE uses
the carried bytes (nil pointer → missing_payload), S3 fetches at the carried
key (nil key → missing_s3_key, fetch error → retriable s3_fetch_failed), any
other disposition is invalid_payload_mode. -/
def payloadBytesOf (env : ProcEnv) (msg : SQSEventMessage) : Except PayloadErr Bytes :=
  if msg.payloadMode = payloadModeInline then
    match msg.payloadInline with
    | none => .error .missingPayload
    | some b => .ok b
  else if msg.payloadMode = payloadModeS3 then
    match msg.s3Key with
    | none => .error .missingS3Key
    | some key =>
        match env.s3Get key with
        | none => .error .s3FetchFailed
        | some b => .ok b
  else .error .invalidPayloadMode

/-- Result of `Processor.process` (`internal/processor/processor.go`): nil,
a `models.RetryableError`, or a `models.NonRetryableError` carrying a reason
and the optional wrapped error text. -/
inductive ProcResult
  | ok
  | retryable (reason : String)
  | nonRetryable (reason : String) (detail : Option String)
  deriving DecidableEq, Repr

/-- Rendering of `NonRetryableError.Error()` (`internal/models/errors.go`):
`"non-retryable: " + Reason` with `": " + err` appended when an error is
wrapped. -/
def nonRetryableMessage (reason : String) (detail : Option String) : String :=
  match detail with
  | some d => "non-retryable: " ++ reason ++ ": " ++ d
  | none => "non-retryable: " ++ reason

/-- Embeds `Processor.process` from `internal/processor/processor.go`:
idempotency claim (skip when already processed), payload materialization,
digest verification, JSON decode, re-validation, persist with the message's
event id as the authoritative id, then `MarkSuccess`.  Transient DB faults
of the insert are outside this sequential model. -/
def process (env : ProcEnv) (st : ProcState) (msg : SQSEventMessage) :
    ProcResult × ProcState :=
  let cm := checkAndMark st.ledger msg.eventID env.now
  let st1 : ProcState := ⟨cm.snd, st.events⟩
  if cm.fst then (.ok, st1)
  else
    match payloadBytesOf env msg with
    | .error pe =>
        if pe.retriable then (.retryable pe.reason, st1)
        else (.nonRetryable pe.reason none, st1)
    | .ok payloadBytes =>
        if env.sha256Hex payloadBytes = msg.payloadSHA256 then
          match env.parseEvent payloadBytes with
          | none => (.nonRetryable "unmarshal_error" none, st1)
          | some ev =>
              match ev.validate env.now with
              | some verr => (.nonRetryable "validation_error" (some verr.message), st1)
              | none =>
                  let ev2 := { ev with eventID := msg.eventID }
                  let s3Key := if msg.payloadMode = payloadModeS3 then msg.s3Key else none
                  let events2 :=
                    insertEvent st1.events ev2 msg.correlationID msg.payloadMode s3Key env.now
                  (.ok, ⟨markSuccess st1.ledger msg.eventID env.now, events2⟩)
        else (.nonRetryable "hash_mismatch" none, st1)

/-- Transport outcome of handling one message: ack, ack-after-poisoning
(`failPermanent` then nil), or an error returned to the transport (NACK). -/
inductive Outcome
  | ack
  | ackPoisoned (reason : String) (detail : Option String)
  | nackRetry (reason : String)
  deriving DecidableEq, Repr

/-- Embeds `Processor.ProcessMessage` with `failPermanent`
(`internal/processor/processor.go`): a `NonRetryableError` is turned into
`MarkFailed(eventID, err.Error())` followed by an ACK; retryable errors are
surfaced to the transport; success is an ACK. -/
def ProcessMessage (env : ProcEnv) (st : ProcState) (msg : SQSEventMessage) :
    Outcome × ProcState :=
  match process env st msg with
  | (.ok, st1) => (.ack, st1)
  | (.retryable reason, st1) => (.nackRetry reason, st1)
  | (.nonRetryable reason detail, st1) =>
      (.ackPoisoned reason detail,
       ⟨markFailed st1.ledger msg.eventID (nonRetryableMessage reason detail) env.now,
        st1.events⟩)

/-- Embeds `processMessage` from `cmd/processor/main.go` (the inline handler
revision): idempotency claim, payload materialization with
`MarkFailed(reason)` + ACK on poison, digest verification with
`MarkFailed("hash_mismatch")` + ACK on mismatch, JSON decode with
`MarkFailed("unmarshal_error")` + ACK on failure, then persist (without
re-validation and without overriding the event id) and `MarkSuccess`.  The
SNS notification is effect-free for the store and is omitted. -/
def processMessageCmd (env : ProcEnv) (st : ProcState) (msg : SQSEventMessage) :
    Outcome × ProcState :=
  let cm := checkAndMark st.ledger msg.eventID env.now
  let st1 : ProcState := ⟨cm.snd, st.events⟩
  if cm.fst then (.ack, st1)
  else
    match payloadBytesOf env msg with
    | .error pe =>
        if pe.retriable then (.nackRetry pe.reason, st1)
        else (.ackPoisoned pe.reason none,
              ⟨markFailed st1.ledger msg.eventID pe.reason env.now, st1.events⟩)
    | .ok payloadBytes =>
        if env.sha256Hex payloadBytes = msg.payloadSHA256 then
          match env.parseEvent payloadBytes with
          | none => (.ackPoisoned "unmarshal_error" none,
                     ⟨markFailed st1.ledger msg.eventID "unmarshal_error" env.now, st1.events⟩)
          | some ev =>
              let s3Key := if msg.payloadMode = payloadModeS3 then msg.s3Key else none
              let events2 :=
                insertEvent st1.events ev msg.correlationID msg.payloadMode s3Key env.now
              (.ack, ⟨markSuccess st1.ledger msg.eventID env.now, events2⟩)
        else (.ackPoisoned "hash_mismatch" none,
              ⟨markFailed st1.ledger msg.eventID "hash_mismatch" env.now, st1.events⟩)

/-- External collaborators of the ingest handler (`cmd/ingest/main.go`),
abstracted as functions and outcome flags: the JSON body decoder, the two
UUIDs that would be freshly generated, the canonical event serializer
(`Event.ToJSON`), the SHA-256 hex digest, the S3 put outcome, the UTC date
string used in the object key, the queue coordinates and send outcome, and
the wall clock. -/
structure IngestEnv where
  parseBody : String → Option Event
  uuidEventID : String
  uuidCorrelationID : String
  serialize : Event → Option Bytes
  sha256Hex : Bytes → String
  s3PutOk : Bool
  s3Bucket : String
  dateStr : String
  queueURL : String
  sqsSendOk : Bool
  now : Int

/-- Event-id assignment step of the handler
(`if event.EventID == "" { event.EventID = uuid.New().String() }`). -/
def withAssignedID (env : IngestEnv) (ev0 : Event) : Event :=
  if ev0.eventID = "" then { ev0 with eventID := env.uuidEventID } else ev0

/-- Observable outcome of one ingest invocation: the HTTP status code, the
queue messages successfully sent, and the blob objects successfully
written. -/
structure IngestResult where
  statusCode : Nat
  sentMessages : List SendMessageInput
  s3Writes : List (String × Bytes)
  deriving DecidableEq, Repr

/-- Blob object key synthesized by `storage.Client.PutPayload`
(`internal/storage/s3.go`): `raw/YYYY-MM-DD/<event_id>.json`. -/
def s3ObjectKey (dateStr eventID : String) : String :=
  "raw/" ++ dateStr ++ "/" ++ eventID ++ ".json"

/-- Embeds `handler` from `cmd/ingest/main.go`: correlation-id from the
header or fresh, JSON parse (400 on failure), event-id assignment,
validation (400 on failure), canonical serialization (500 on failure),
digest computation, size-based payload routing (S3 put, 500 on failure),
queue send (500 on failure), 202 on success.  The queue message's
`ReceivedAt` is set to `event.Timestamp` exactly as in the source. -/
def handler (env : IngestEnv) (body : String) (headerCID : String) : IngestResult :=
  let correlationID := if headerCID = "" then env.uuidCorrelationID else headerCID
  match env.parseBody body with
  | none => ⟨400, [], []⟩
  | some ev0 =>
      let ev := withAssignedID env ev0
      match ev.validate env.now with
      | some _ => ⟨400, [], []⟩
      | none =>
          match env.serialize ev with
          | none => ⟨500, [], []⟩
          | some payloadBytes =>
              let digest := env.sha256Hex payloadBytes
              if ShouldUseS3 (List.length payloadBytes) then
                if env.s3PutOk then
                  let key := s3ObjectKey env.dateStr ev.eventID
                  let msg : SQSEventMessage :=
                    ⟨ev.eventID, correlationID, payloadModeS3, none, digest,
                     some env.s3Bucket, some key, ev.timestamp⟩
                  if env.sqsSendOk then
                    ⟨202, [SendEventMessage env.queueURL msg], [(key, payloadBytes)]⟩
                  else ⟨500, [], [(key, payloadBytes)]⟩
                else ⟨500, [], []⟩
              else
                let msg : SQSEventMessage :=
                  ⟨ev.eventID, correlationID, payloadModeInline, some payloadBytes, digest,
                   none, none, ev.timestamp⟩
                if env.sqsSendOk then ⟨202, [SendEventMessage env.queueURL msg], []⟩
                else ⟨500, [], []⟩

/-- Concrete valid event used by witnesses: all fields populated, amount 10,
timestamp 1000 ns. -/
def evSmall : Event := ⟨"id1", "u1", 10, "USD", "m1", 1000, []⟩

/-- Concrete invalid event used by witnesses: amount 0. -/
def evInvalidAmount : Event := ⟨"id1", "u1", 0, "USD", "m1", 1000, []⟩

/-- Empty relational store. -/
def stEmpty : ProcState := ⟨emptyLedger, emptyEvents⟩

/-- Concrete processor environment whose decoder yields the invalid event
and whose digest function returns `"h"` for every payload. -/
def envProcInvalid : ProcEnv := ⟨fun _ => none, fun _ => "h", fun _ => some evInvalidAmount, 0⟩

/-- Concrete inline message with digest `"h"` (matching `envProcInvalid`). -/
def msgInlineGood : SQSEventMessage :=
  ⟨"e1", "c1", payloadModeInline, some [1], "h", none, none, 0⟩

/-- Concrete inline message carrying digest `"other"` (mismatching). -/
def msgInlineBadHash : SQSEventMessage :=
  ⟨"e1", "c1", payloadModeInline, some [1], "other", none, none, 0⟩

/-- Concrete ingest environment used by witnesses: the body decodes to
`evSmall`, serialization yields a one-byte payload, and all infrastructure
calls succeed. -/
def envIngestSmall : IngestEnv :=
  ⟨fun _ => some evSmall, "uuid-e", "uuid-c", fun _ => some [7], fun _ => "h",
   true, "bucket", "2024-01-01", "q", true, 0⟩

/-- Variant of `envIngestSmall` whose body fails to parse. -/
def envIngestParseFail : IngestEnv :=
  ⟨fun _ => none, "uuid-e", "uuid-c", fun _ => some [7], fun _ => "h",
   true, "bucket", "2024-01-01", "q", true, 0⟩

/-- Variant of `envIngestSmall` whose body decodes to the invalid event. -/
def envIngestInvalid : IngestEnv :=
  ⟨fun _ => some evInvalidAmount, "uuid-e", "uuid-c", fun _ => some [7], fun _ => "h",
   true, "bucket", "2024-01-01", "q", true, 0⟩

/-- Variant of `envIngestSmall` whose serialization is one byte over the
inline threshold and whose S3 put fails. -/
def envIngestS3Fail : IngestEnv :=
  ⟨fun _ => some evSmall, "uuid-e", "uuid-c", fun _ => some (List.replicate 262145 0),
   fun _ => "h", false, "bucket", "2024-01-01", "q", true, 0⟩

/-- Variant of `envIngestSmall` whose serialization is exactly the 262144
byte boundary. -/
def envIngestBoundary : IngestEnv :=
  ⟨fun _ => some evSmall, "uuid-e", "uuid-c", fun _ => some (List.replicate 262144 0),
   fun _ => "h", true, "bucket", "2024-01-01", "q", true, 0⟩

/-- Variant of `envIngestSmall` whose serialization is one byte over the
boundary and whose S3 put succeeds. -/
def envIngestOver : IngestEnv :=
  ⟨fun _ => some evSmall, "uuid-e", "uuid-c", fun _ => some (List.replicate 262145 0),
   fun _ => "h", true, "bucket", "2024-01-01", "q", true, 0⟩

/-- C1: a claim on a ledger entry that is `processing` and was last seen less
than the 60 s liveness window ago returns already-done (`true`) and leaves
the whole table — in particular the entry's status and attempts — unchanged;
it does not return fresh/retry (`false`). -/
theorem checkAndMark_live_processing_already_done
    (l : Ledger) (eventID : String) (now : Int) (ent : LedgerEntry)
    (hent : l eventID = some ent)
    (hproc : ent.status = .processing)
    (hlive : now - ent.lastSeenAt < livenessWindowNs) :
    checkAndMark l eventID now = (true, l) := by
  simp [checkAndMark, hent, hproc, hlive]

/-- Witness for C1 at a concrete table: entry processing, last seen at 0,
claimed again at 5 ns. -/
theorem checkAndMark_live_processing_already_done_witness :
    checkAndMark (emptyLedger.set "e" ⟨.processing, 0, 0, 1, none⟩) "e" 5 =
      (true, emptyLedger.set "e" ⟨.processing, 0, 0, 1, none⟩) :=
  checkAndMark_live_processing_already_done _ "e" 5 ⟨.processing, 0, 0, 1, none⟩
    (by decide) (by decide) (by decide)

theorem checkAndMark_success_state (l : Ledger) (eventID : String) (now : Int) (ent : LedgerEntry)
    (hent : l eventID = some ent) (hsucc : ent.status = .success) :
    checkAndMark l eventID now = (true, l) := by
  simp [checkAndMark, hent, hsucc]

theorem checkAndMarkV1_success_state (l : Ledger) (eventID : String) (now : Int)
    (ent : LedgerEntry)
    (hent : l eventID = some ent) (hsucc : ent.status = .success) :
    checkAndMarkV1 l eventID now = (true, l.set eventID { ent with lastSeenAt := now }) := by
  simp [checkAndMarkV1, hent, hsucc]

theorem claimsAllWith_checkAndMark_of_success (eventID : String) (ts : List Int) :
    ∀ l : Ledger, statusOf l eventID = some .success →
      claimsAllWith checkAndMark l eventID ts = true := by
  induction ts with
  | nil => intro l _; rfl
  | cons t ts ih =>
      intro l hl
      obtain ⟨ent, hent, hsucc⟩ : ∃ ent, l eventID = some ent ∧ ent.status = .success := by
        unfold statusOf at hl
        cases hlk : l eventID with
        | none => rw [hlk] at hl; simp at hl
        | some ent =>
            rw [hlk] at hl
            simp at hl
            exact ⟨ent, rfl, hl⟩
      have hcm := checkAndMark_success_state l eventID t ent hent hsucc
      simp only [claimsAllWith, hcm]
      exact ih l hl

theorem claimsAllWith_checkAndMarkV1_of_success (eventID : String) (ts : List Int) :
    ∀ l : Ledger, statusOf l eventID = some .success →
      claimsAllWith checkAndMarkV1 l eventID ts = true := by
  induction ts with
  | nil => intro l _; rfl
  | cons t ts ih =>
      intro l hl
      obtain ⟨ent, hent, hsucc⟩ : ∃ ent, l eventID = some ent ∧ ent.status = .success := by
        unfold statusOf at hl
        cases hlk : l eventID with
        | none => rw [hlk] at hl; simp at hl
        | some ent =>
            rw [hlk] at hl
            simp at hl
            exact ⟨ent, rfl, hl⟩
      have hcm := checkAndMarkV1_success_state l eventID t ent hent hsucc
      simp only [claimsAllWith, hcm]
      apply ih
      simp [statusOf, Ledger.set, hsucc]

theorem markSuccess_status (l : Ledger) (eventID : String) (now : Int)
    (h : (l eventID).isSome = true) :
    statusOf (markSuccess l eventID now) eventID = some .success := by
  cases hlk : l eventID with
  | none => rw [hlk] at h; simp at h
  | some ent => simp [markSuccess, hlk, statusOf, Ledger.set]

/-- C2 counterexample: the claim fails as stated, because `MarkSuccess` on an
event with no ledger entry completes without error as a no-op (the C10
behaviour), after which the next claim returns fresh (`false`), not
already-done. -/
theorem markSuccess_absent_then_claim_not_already_done :
    ¬ (∀ (l : Ledger) (eventID : String) (now : Int) (ts : List Int),
        claimsAllWith checkAndMark (markSuccess l eventID now) eventID ts = true) :=
  fun h => absurd (h emptyLedger "e" 0 [1]) (by decide)

/-- C2 amended: once `MarkSuccess` has completed on an event that has a
ledger entry, every subsequent sequence of claim calls returns already-done
(`true`) and never fresh/retry, in both revisions of `CheckAndMark`. -/
theorem markSuccess_present_claims_always_already_done
    (l : Ledger) (eventID : String) (now : Int) (ts : List Int)
    (h : (l eventID).isSome = true) :
    claimsAllWith checkAndMark (markSuccess l eventID now) eventID ts = true ∧
      claimsAllWith checkAndMarkV1 (markSuccess l eventID now) eventID ts = true := by
  have hst := markSuccess_status l eventID now h
  exact ⟨claimsAllWith_checkAndMark_of_success eventID ts _ hst,
         claimsAllWith_checkAndMarkV1_of_success eventID ts _ hst⟩

/-- Witness for C2 at a concrete table holding one processing entry that is
then committed successfully and claimed three more times. -/
theorem markSuccess_present_claims_always_already_done_witness :
    claimsAllWith checkAndMark
        (markSuccess (emptyLedger.set "e" ⟨.processing, 0, 0, 1, none⟩) "e" 2) "e"
        [3, 100, 999999999999] = true ∧
      claimsAllWith checkAndMarkV1
        (markSuccess (emptyLedger.set "e" ⟨.processing, 0, 0, 1, none⟩) "e" 2) "e"
        [3, 100, 999999999999] = true :=
  markSuccess_present_claims_always_already_done
    (emptyLedger.set "e" ⟨.processing, 0, 0, 1, none⟩) "e" 2 [3, 100, 999999999999]
    (by decide)

/-- C10: committing success or failure for an event that has no ledger entry
is a silent no-op: the UPDATE matches zero rows, Go reports no error, no
entry is created, and the table is returned entirely unchanged. -/
theorem mark_without_entry_noop
    (l : Ledger) (eventID : String) (reason : String) (now : Int)
    (habsent : l eventID = none) :
    markSuccess l eventID now = l ∧ markFailed l eventID reason now = l := by
  constructor
  · simp [markSuccess, habsent]
  · simp [markFailed, habsent]

/-- Witness for C10 on the empty table. -/
theorem mark_without_entry_noop_witness :
    markSuccess emptyLedger "e" 3 = emptyLedger ∧
      markFailed emptyLedger "e" "boom" 3 = emptyLedger :=
  mark_without_entry_noop emptyLedger "e" "boom" 3 (by decide)

theorem statusOf_set (l : Ledger) (eventID : String) (ent : LedgerEntry) :
    statusOf (l.set eventID ent) eventID = some ent.status := by
  simp [statusOf, Ledger.set]

theorem claim_step_allowed (l : Ledger) (eventID : String) (now : Int) :
    AllowedStep (statusOf l eventID) (statusOf ((checkAndMark l eventID now).snd) eventID) := by
  cases hlk : l eventID with
  | none =>
      have hb : (checkAndMark l eventID now).snd =
          l.set eventID ⟨.processing, now, now, 1, none⟩ := by
        simp [checkAndMark, hlk]
      rw [hb, statusOf_set]
      right; left
      exact ⟨by simp [statusOf, hlk], rfl⟩
  | some ent =>
      have ha : statusOf l eventID = some ent.status := by simp [statusOf, hlk]
      by_cases hs : ent.status = .success
      · rw [checkAndMark_success_state l eventID now ent hlk hs]
        left; rfl
      · by_cases hp : ent.status = .processing ∧ now - ent.lastSeenAt < livenessWindowNs
        · have hb : (checkAndMark l eventID now).snd = l := by
            simp [checkAndMark, hlk, hs, hp]
          rw [hb]; left; rfl
        · have hb : (checkAndMark l eventID now).snd = l.set eventID
              { ent with status := .processing, lastSeenAt := now,
                         attempts := ent.attempts + 1 } := by
            simp [checkAndMark, hlk, hs, hp]
          rw [hb, statusOf_set, ha]
          cases hstat : ent.status with
          | processing => right; right; left; exact ⟨rfl, rfl⟩
          | success => exact absurd hstat hs
          | failed => right; right; right; right; right; exact ⟨rfl, rfl⟩

theorem status_some_elim {l : Ledger} {eventID : String} {s : IdempotencyStatus}
    (h : statusOf l eventID = some s) :
    ∃ ent, l eventID = some ent ∧ ent.status = s := by
  unfold statusOf at h
  cases hlk : l eventID with
  | none => rw [hlk] at h; simp at h
  | some ent =>
      rw [hlk] at h
      simp at h
      exact ⟨ent, rfl, h⟩

theorem claim_preserves_success (l : Ledger) (eventID : String) (now : Int)
    (h : statusOf l eventID = some .success) :
    statusOf ((checkAndMark l eventID now).snd) eventID = some .success := by
  obtain ⟨ent, hent, hsucc⟩ := status_some_elim h
  rw [checkAndMark_success_state l eventID now ent hent hsucc]
  exact h

theorem commitSuccess_step_allowed (l : Ledger) (eventID : String) (now : Int)
    (h : statusOf l eventID = some .processing) :
    AllowedStep (statusOf l eventID) (statusOf (markSuccess l eventID now) eventID) := by
  obtain ⟨ent, hent, hproc⟩ := status_some_elim h
  have hb : markSuccess l eventID now =
      l.set eventID { ent with status := .success, lastSeenAt := now } := by
    simp [markSuccess, hent]
  rw [hb, statusOf_set, h]
  right; right; right; left
  exact ⟨rfl, rfl⟩

theorem commitFailed_step_allowed (l : Ledger) (eventID : String) (reason : String) (now : Int)
    (h : statusOf l eventID = some .processing) :
    AllowedStep (statusOf l eventID) (statusOf (markFailed l eventID reason now) eventID) := by
  obtain ⟨ent, hent, hproc⟩ := status_some_elim h
  have hb : markFailed l eventID reason now =
      l.set eventID { ent with status := .failed, lastSeenAt := now,
                               errorReason := some (truncateReason reason) } := by
    simp [markFailed, hent]
  rw [hb, statusOf_set, h]
  right; right; right; right; left
  exact ⟨rfl, rfl⟩

/-- C3 amended: along every protocol-respecting sequence of ledger operations
(commits only issued while the entry is `processing`, as the processor does),
consecutive statuses follow only the allowed transitions, and once the status
is `success` every later status is still `success`. -/
theorem ledger_protocol_transitions_allowed
    (eventID : String) (ops : List LedgerOp) :
    ∀ l : Ledger, protocolOk l eventID ops = true →
      List.Chain AllowedStep (statusOf l eventID) (statusTrace l eventID ops) ∧
      List.Pairwise
        (fun a b => a = some IdempotencyStatus.success → b = some IdempotencyStatus.success)
        (statusOf l eventID :: statusTrace l eventID ops) := by
  induction ops with
  | nil =>
      intro l _
      exact ⟨List.Chain.nil, by simp [statusTrace]⟩
  | cons op ops ih =>
      intro l hp
      rw [protocolOk, Bool.and_eq_true] at hp
      obtain ⟨hpre, hrest⟩ := hp
      have hstep : AllowedStep (statusOf l eventID) (statusOf (applyOp l eventID op) eventID) := by
        cases op with
        | claim t => exact claim_step_allowed l eventID t
        | commitSuccess t =>
            have hproc : statusOf l eventID = some .processing := by
              simp [isCommit] at hpre
              exact hpre
            exact commitSuccess_step_allowed l eventID t hproc
        | commitFailed r t =>
            have hproc : statusOf l eventID = some .processing := by
              simp [isCommit] at hpre
              exact hpre
            exact commitFailed_step_allowed l eventID r t hproc
      have hsucc : statusOf l eventID = some .success →
          statusOf (applyOp l eventID op) eventID = some .success := by
        intro hs
        cases op with
        | claim t => exact claim_preserves_success l eventID t hs
        | commitSuccess t =>
            have hproc : statusOf l eventID = some .processing := by
              simp [isCommit] at hpre
              exact hpre
            rw [hs] at hproc
            simp at hproc
        | commitFailed r t =>
            have hproc : statusOf l eventID = some .processing := by
              simp [isCommit] at hpre
              exact hpre
            rw [hs] at hproc
            simp at hproc
      obtain ⟨ihchain, ihpair⟩ := ih (applyOp l eventID op) hrest
      refine ⟨List.Chain.cons hstep ihchain, ?_⟩
      rw [statusTrace]
      rw [List.pairwise_cons]
      refine ⟨?_, ihpair⟩
      intro b hb hs
      have hl1 := hsucc hs
      rcases List.mem_cons.mp hb with hbhead | hbtail
      · rw [hbhead]; exact hl1
      · exact (List.pairwise_cons.mp ihpair).1 b hbtail hl1

/-- Witness for C3 at a concrete protocol-respecting run: fresh claim,
commit-failed, re-claim (retry of a prior poison), commit-success, then a
duplicate claim. -/
theorem ledger_protocol_transitions_allowed_witness :
    List.Chain AllowedStep (statusOf emptyLedger "e")
        (statusTrace emptyLedger "e"
          [.claim 0, .commitFailed "boom" 1, .claim 2, .commitSuccess 3, .claim 4]) ∧
      List.Pairwise
        (fun a b => a = some IdempotencyStatus.success → b = some IdempotencyStatus.success)
        (statusOf emptyLedger "e" ::
          statusTrace emptyLedger "e"
            [.claim 0, .commitFailed "boom" 1, .claim 2, .commitSuccess 3, .claim 4]) :=
  ledger_protocol_transitions_allowed "e"
    [.claim 0, .commitFailed "boom" 1, .claim 2, .commitSuccess 3, .claim 4]
    emptyLedger (by decide)

/-- C3 counterexample: without the protocol restriction the claim is false —
issuing `MarkFailed` directly after `MarkSuccess` moves the row from
`success` to `failed`, a transition outside the allowed set, so `success` is
not terminal for raw ledger primitives. -/
theorem ledger_unrestricted_transitions_violate :
    ¬ (∀ (l : Ledger) (eventID : String) (ops : List LedgerOp),
        List.Chain AllowedStep (statusOf l eventID) (statusTrace l eventID ops) ∧
        List.Pairwise
          (fun a b => a = some IdempotencyStatus.success → b = some IdempotencyStatus.success)
          (statusOf l eventID :: statusTrace l eventID ops)) := by
  intro h
  obtain ⟨-, hpair⟩ :=
    h emptyLedger "e" [.claim 0, .commitSuccess 1, .commitFailed "late" 2]
  have htrace : statusTrace emptyLedger "e"
      [.claim 0, .commitSuccess 1, .commitFailed "late" 2] =
      [some .processing, some .success, some .failed] := by decide
  rw [htrace] at hpair
  simp [List.pairwise_cons] at hpair

/-- C5: validation is total — `Validate` accepts exactly when every §3
constraint holds: non-empty `user_id`, `currency`, `merchant`, strictly
positive amount, timestamp set and at most five minutes in the future
(`now + 5min` itself accepted), and at most 10 metadata keys (so 11 keys are
rejected).  The iff means there are no further hidden rejections. -/
theorem validate_ok_iff_constraints (e : Event) (now : Int) :
    e.validate now = none ↔
      (e.userID ≠ "" ∧ 0 < e.amount ∧ e.currency ≠ "" ∧ e.merchant ≠ "" ∧
        e.timestamp ≠ 0 ∧ e.timestamp ≤ now + fiveMinutesNs ∧ e.metadata.length ≤ 10) := by
  unfold Event.validate
  split_ifs with h1 h2 h3 h4 h5 h6 h7
  · simp [h1]
  · simp only [not_lt] at *
    constructor
    · intro h; exact absurd h (by simp)
    · rintro ⟨-, hpos, -⟩
      exact absurd h2 (not_le.mpr hpos)
  · simp [h3]
  · simp [h4]
  · simp [h5]
  · constructor
    · intro h; exact absurd h (by simp)
    · rintro ⟨-, -, -, -, -, hle, -⟩
      exact absurd h6 (not_lt.mpr hle)
  · constructor
    · intro h; exact absurd h (by simp)
    · rintro ⟨-, -, -, -, -, -, hlen⟩
      exact absurd h7 (not_lt.mpr hlen)
  · simp only [true_iff]
    refine ⟨h1, not_le.mp h2, h3, h4, h5, not_lt.mp h6, not_lt.mp h7⟩

theorem checkAndMark_false_processing (l : Ledger) (eventID : String) (now : Int)
    (h : (checkAndMark l eventID now).fst = false) :
    statusOf ((checkAndMark l eventID now).snd) eventID = some .processing := by
  cases hlk : l eventID with
  | none =>
      have hb : (checkAndMark l eventID now).snd =
          l.set eventID ⟨.processing, now, now, 1, none⟩ := by
        simp [checkAndMark, hlk]
      rw [hb, statusOf_set]
  | some ent =>
      by_cases hs : ent.status = .success
      · exfalso
        rw [checkAndMark_success_state l eventID now ent hlk hs] at h
        simp at h
      · by_cases hp : ent.status = .processing ∧ now - ent.lastSeenAt < livenessWindowNs
        · exfalso
          have hcm : checkAndMark l eventID now = (true, l) := by
            simp [checkAndMark, hlk, hs, hp]
          rw [hcm] at h
          simp at h
        · have hb : (checkAndMark l eventID now).snd = l.set eventID
              { ent with status := .processing, lastSeenAt := now,
                         attempts := ent.attempts + 1 } := by
            simp [checkAndMark, hlk, hs, hp]
          rw [hb, statusOf_set]

theorem markFailed_entry (l : Ledger) (eventID reason : String) (now : Int) (ent : LedgerEntry)
    (hent : l eventID = some ent) :
    (markFailed l eventID reason now) eventID =
      some { ent with status := .failed, lastSeenAt := now,
                      errorReason := some (truncateReason reason) } := by
  simp [markFailed, hent, Ledger.set]

theorem markFailed_failed_entry (l : Ledger) (eventID reason : String) (now : Int)
    (h : (l eventID).isSome = true) :
    statusOf (markFailed l eventID reason now) eventID = some .failed ∧
      ∃ ent, (markFailed l eventID reason now) eventID = some ent ∧
        ent.errorReason = some (truncateReason reason) := by
  obtain ⟨ent, hent⟩ := Option.isSome_iff_exists.mp h
  have hrow := markFailed_entry l eventID reason now ent hent
  constructor
  · unfold statusOf
    rw [hrow]
    rfl
  · exact ⟨_, hrow, rfl⟩

/-- C4: when the payload digest matches and the bytes decode to an event that
fails §3 re-validation (the `event.Validate()` call of
`internal/processor/processor.go`), the processor ack-poisons the message
with reason `validation_error`: the ledger entry is marked failed carrying
that reason, the outcome is an ACK-with-poison, and the events table is left
untouched (no row is written). -/
theorem process_revalidates_poisons_validation_error
    (env : ProcEnv) (st : ProcState) (msg : SQSEventMessage)
    (payloadBytes : Bytes) (ev : Event) (verr : ErrInvalidEvent)
    (hclaim : (checkAndMark st.ledger msg.eventID env.now).fst = false)
    (hbytes : payloadBytesOf env msg = .ok payloadBytes)
    (hhash : env.sha256Hex payloadBytes = msg.payloadSHA256)
    (hparse : env.parseEvent payloadBytes = some ev)
    (hval : ev.validate env.now = some verr) :
    ProcessMessage env st msg =
      (.ackPoisoned "validation_error" (some verr.message),
       ⟨markFailed (checkAndMark st.ledger msg.eventID env.now).snd msg.eventID
          (nonRetryableMessage "validation_error" (some verr.message)) env.now,
        st.events⟩) ∧
      statusOf (ProcessMessage env st msg).snd.ledger msg.eventID = some .failed ∧
      (ProcessMessage env st msg).snd.events = st.events := by
  have hproc : process env st msg =
      (.nonRetryable "validation_error" (some verr.message),
       ⟨(checkAndMark st.ledger msg.eventID env.now).snd, st.events⟩) := by
    simp [process, hclaim, hbytes, hhash, hparse, hval]
  have hpm : ProcessMessage env st msg =
      (.ackPoisoned "validation_error" (some verr.message),
       ⟨markFailed (checkAndMark st.ledger msg.eventID env.now).snd msg.eventID
          (nonRetryableMessage "validation_error" (some verr.message)) env.now,
        st.events⟩) := by
    simp [ProcessMessage, hproc]
  have hsome : ((checkAndMark st.ledger msg.eventID env.now).snd msg.eventID).isSome = true := by
    obtain ⟨ent, hent, -⟩ :=
      status_some_elim (checkAndMark_false_processing st.ledger msg.eventID env.now hclaim)
    simp [hent]
  refine ⟨hpm, ?_, ?_⟩
  · rw [hpm]
    exact (markFailed_failed_entry _ msg.eventID _ env.now hsome).1
  · rw [hpm]

/-- Witness for C4: empty store, inline message whose bytes decode to an
event with amount 0; the processor poisons it with `validation_error`. -/
theorem process_revalidates_poisons_validation_error_witness :
    ProcessMessage envProcInvalid stEmpty msgInlineGood =
      (.ackPoisoned "validation_error"
         (some (ErrInvalidEvent.message ⟨"amount", "must be greater than 0", errCodeInvalidValue⟩)),
       ⟨markFailed (checkAndMark stEmpty.ledger msgInlineGood.eventID envProcInvalid.now).snd
          msgInlineGood.eventID
          (nonRetryableMessage "validation_error"
            (some (ErrInvalidEvent.message ⟨"amount", "must be greater than 0", errCodeInvalidValue⟩)))
          envProcInvalid.now,
        stEmpty.events⟩) ∧
      statusOf (ProcessMessage envProcInvalid stEmpty msgInlineGood).snd.ledger
        msgInlineGood.eventID = some .failed ∧
      (ProcessMessage envProcInvalid stEmpty msgInlineGood).snd.events = stEmpty.events :=
  process_revalidates_poisons_validation_error envProcInvalid stEmpty msgInlineGood
    [1] evInvalidAmount ⟨"amount", "must be greater than 0", errCodeInvalidValue⟩
    (by decide) (by rfl) (by decide) (by decide) (by decide)

/-- C6: for every payload the `cmd/processor` handler materializes (inline
bytes or a blob fetch), either the SHA-256 digest of the bytes equals the
message's `payload_sha256`, or the message is poisoned: the ledger entry is
marked failed with reason exactly `hash_mismatch`, the message is ACKed (the
Go handler returns nil so the transport deletes it), and no events row is
created. -/
theorem hash_gate_match_or_poisoned
    (env : ProcEnv) (st : ProcState) (msg : SQSEventMessage) (payloadBytes : Bytes)
    (hclaim : (checkAndMark st.ledger msg.eventID env.now).fst = false)
    (hbytes : payloadBytesOf env msg = .ok payloadBytes) :
    env.sha256Hex payloadBytes = msg.payloadSHA256 ∨
      (processMessageCmd env st msg =
         (.ackPoisoned "hash_mismatch" none,
          ⟨markFailed (checkAndMark st.ledger msg.eventID env.now).snd msg.eventID
             "hash_mismatch" env.now, st.events⟩) ∧
       statusOf (processMessageCmd env st msg).snd.ledger msg.eventID = some .failed ∧
       (∃ ent, (processMessageCmd env st msg).snd.ledger msg.eventID = some ent ∧
          ent.errorReason = some "hash_mismatch") ∧
       (processMessageCmd env st msg).snd.events = st.events) := by
  by_cases hhash : env.sha256Hex payloadBytes = msg.payloadSHA256
  · exact Or.inl hhash
  · right
    have hpm : processMessageCmd env st msg =
        (.ackPoisoned "hash_mismatch" none,
         ⟨markFailed (checkAndMark st.ledger msg.eventID env.now).snd msg.eventID
            "hash_mismatch" env.now, st.events⟩) := by
      simp [processMessageCmd, hclaim, hbytes, hhash]
    have hsome : ((checkAndMark st.ledger msg.eventID env.now).snd msg.eventID).isSome = true := by
      obtain ⟨ent, hent, -⟩ :=
        status_some_elim (checkAndMark_false_processing st.ledger msg.eventID env.now hclaim)
      simp [hent]
    have hmf := markFailed_failed_entry ((checkAndMark st.ledger msg.eventID env.now).snd)
      msg.eventID "hash_mismatch" env.now hsome
    have htrunc : truncateReason "hash_mismatch" = "hash_mismatch" := by decide
    refine ⟨hpm, ?_, ?_, ?_⟩
    · rw [hpm]
      exact hmf.1
    · rw [hpm]
      obtain ⟨ent, hent, hr⟩ := hmf.2
      rw [htrunc] at hr
      exact ⟨ent, hent, hr⟩
    · rw [hpm]

/-- Witness for C6: empty store, inline message whose digest `"other"` does
not match the hash `"h"` of its bytes; the disjunction resolves to the
poisoned branch. -/
theorem hash_gate_match_or_poisoned_witness :
    envProcInvalid.sha256Hex [1] = msgInlineBadHash.payloadSHA256 ∨
      (processMessageCmd envProcInvalid stEmpty msgInlineBadHash =
         (.ackPoisoned "hash_mismatch" none,
          ⟨markFailed (checkAndMark stEmpty.ledger msgInlineBadHash.eventID envProcInvalid.now).snd
             msgInlineBadHash.eventID "hash_mismatch" envProcInvalid.now, stEmpty.events⟩) ∧
       statusOf (processMessageCmd envProcInvalid stEmpty msgInlineBadHash).snd.ledger
         msgInlineBadHash.eventID = some .failed ∧
       (∃ ent, (processMessageCmd envProcInvalid stEmpty msgInlineBadHash).snd.ledger
            msgInlineBadHash.eventID = some ent ∧
          ent.errorReason = some "hash_mismatch") ∧
       (processMessageCmd envProcInvalid stEmpty msgInlineBadHash).snd.events = stEmpty.events) :=
  hash_gate_match_or_poisoned envProcInvalid stEmpty msgInlineBadHash [1]
    (by decide) (by rfl)

/-- C7: the payload router uses the fixed threshold
`maxPayloadSizeBytes = 262144`.  On the successful ingest path a serialized
payload of length at most 262144 bytes (the boundary included) is sent
INLINE, with the bytes carried in the queue message, no `s3_key`, and no
blob write; a payload of length greater than 262144 is dispositioned S3,
with a blob write at the synthesized key, `s3_key` set, and no inline
bytes. -/
theorem payload_router_threshold
    (env : IngestEnv) (body headerCID : String) :
    maxPayloadSizeBytes = 262144 ∧
    (∀ n : Nat, ShouldUseS3 n = decide (262144 < n)) ∧
    (∀ ev0 payloadBytes, env.parseBody body = some ev0 →
      (withAssignedID env ev0).validate env.now = none →
      env.serialize (withAssignedID env ev0) = some payloadBytes →
      List.length payloadBytes ≤ 262144 →
      env.sqsSendOk = true →
      handler env body headerCID =
        ⟨202,
         [SendEventMessage env.queueURL
            ⟨(withAssignedID env ev0).eventID,
             (if headerCID = "" then env.uuidCorrelationID else headerCID),
             payloadModeInline, some payloadBytes, env.sha256Hex payloadBytes,
             none, none, (withAssignedID env ev0).timestamp⟩],
         []⟩) ∧
    (∀ ev0 payloadBytes, env.parseBody body = some ev0 →
      (withAssignedID env ev0).validate env.now = none →
      env.serialize (withAssignedID env ev0) = some payloadBytes →
      262144 < List.length payloadBytes →
      env.s3PutOk = true →
      env.sqsSendOk = true →
      handler env body headerCID =
        ⟨202,
         [SendEventMessage env.queueURL
            ⟨(withAssignedID env ev0).eventID,
             (if headerCID = "" then env.uuidCorrelationID else headerCID),
             payloadModeS3, none, env.sha256Hex payloadBytes,
             some env.s3Bucket,
             some (s3ObjectKey env.dateStr (withAssignedID env ev0).eventID),
             (withAssignedID env ev0).timestamp⟩],
         [(s3ObjectKey env.dateStr (withAssignedID env ev0).eventID, payloadBytes)]⟩) := by
  refine ⟨rfl, fun n => rfl, ?_, ?_⟩
  · intro ev0 payloadBytes hparse hval hser hlen hsend
    have hs3 : ShouldUseS3 (List.length payloadBytes) = false := by
      simp only [ShouldUseS3, maxPayloadSizeBytes, decide_eq_false_iff_not, not_lt]
      omega
    simp [handler, hparse, hval, hser, hs3, hsend]
  · intro ev0 payloadBytes hparse hval hser hlen hput hsend
    have hs3 : ShouldUseS3 (List.length payloadBytes) = true := by
      simp only [ShouldUseS3, maxPayloadSizeBytes, decide_eq_true_eq]
      omega
    simp [handler, hparse, hval, hser, hs3, hput, hsend]

/-- Witness for C7 at the boundary: a 262144-byte payload goes INLINE with
no blob write, and a 262145-byte payload goes to S3 with one blob write. -/
theorem payload_router_threshold_witness :
    handler envIngestBoundary "b" "" =
      ⟨202,
       [SendEventMessage envIngestBoundary.queueURL
          ⟨(withAssignedID envIngestBoundary evSmall).eventID,
           (if ("" : String) = "" then envIngestBoundary.uuidCorrelationID else ""),
           payloadModeInline, some (List.replicate 262144 0),
           envIngestBoundary.sha256Hex (List.replicate 262144 0),
           none, none, (withAssignedID envIngestBoundary evSmall).timestamp⟩],
       []⟩ ∧
      handler envIngestOver "b" "" =
        ⟨202,
         [SendEventMessage envIngestOver.queueURL
            ⟨(withAssignedID envIngestOver evSmall).eventID,
             (if ("" : String) = "" then envIngestOver.uuidCorrelationID else ""),
             payloadModeS3, none, envIngestOver.sha256Hex (List.replicate 262145 0),
             some envIngestOver.s3Bucket,
             some (s3ObjectKey envIngestOver.dateStr (withAssignedID envIngestOver evSmall).eventID),
             (withAssignedID envIngestOver evSmall).timestamp⟩],
         [(s3ObjectKey envIngestOver.dateStr (withAssignedID envIngestOver evSmall).eventID,
           List.replicate 262145 0)]⟩ :=
  ⟨(payload_router_threshold envIngestBoundary "b" "").2.2.1 evSmall (List.replicate 262144 0)
      rfl (by decide) rfl (by rw [List.length_replicate]) rfl,
   (payload_router_threshold envIngestOver "b" "").2.2.2 evSmall (List.replicate 262145 0)
      rfl (by decide) rfl (by rw [List.length_replicate]; decide) rfl rfl⟩

/-- C8: every ingest failure path emits no queue message — a JSON parse
failure returns 400, a validation failure returns 400, and a blob-store
write failure returns 500, each with an empty set of sent messages (and the
two 400 paths also without any blob write). -/
theorem ingest_failure_paths_no_enqueue
    (env : IngestEnv) (body headerCID : String) :
    (env.parseBody body = none → handler env body headerCID = ⟨400, [], []⟩) ∧
    (∀ ev0 verr, env.parseBody body = some ev0 →
      (withAssignedID env ev0).validate env.now = some verr →
      handler env body headerCID = ⟨400, [], []⟩) ∧
    (∀ ev0 payloadBytes, env.parseBody body = some ev0 →
      (withAssignedID env ev0).validate env.now = none →
      env.serialize (withAssignedID env ev0) = some payloadBytes →
      ShouldUseS3 (List.length payloadBytes) = true →
      env.s3PutOk = false →
      handler env body headerCID = ⟨500, [], []⟩) := by
  refine ⟨?_, ?_, ?_⟩
  · intro hparse
    simp [handler, hparse]
  · intro ev0 verr hparse hval
    simp [handler, hparse, hval]
  · intro ev0 payloadBytes hparse hval hser hs3 hput
    simp [handler, hparse, hval, hser, hs3, hput]

/-- Witness for C8: a non-decoding body yields 400, a body decoding to the
invalid event yields 400, and an oversized payload with a failing blob put
yields 500 — all with nothing sent and nothing written. -/
theorem ingest_failure_paths_no_enqueue_witness :
    handler envIngestParseFail "b" "" = ⟨400, [], []⟩ ∧
      handler envIngestInvalid "b" "" = ⟨400, [], []⟩ ∧
      handler envIngestS3Fail "b" "" = ⟨500, [], []⟩ :=
  ⟨(ingest_failure_paths_no_enqueue envIngestParseFail "b" "").1 rfl,
   (ingest_failure_paths_no_enqueue envIngestInvalid "b" "").2.1 evInvalidAmount
      ⟨"amount", "must be greater than 0", errCodeInvalidValue⟩ rfl (by decide),
   (ingest_failure_paths_no_enqueue envIngestS3Fail "b" "").2.2 evSmall
      (List.replicate 262145 0) rfl (by decide) rfl
      (by rw [ShouldUseS3, List.length_replicate]; decide) rfl⟩

/-- C9 counterexample: the enqueued message's `received_at` is not the time
of enqueue — the handler sets `ReceivedAt: event.Timestamp`, so for a
submission whose event timestamp (1000 ns) differs from the wall clock
(0 ns) the sent message carries the event's own timestamp. -/
theorem sent_message_receivedAt_not_now :
    ¬ (∀ (env : IngestEnv) (body headerCID : String),
        ∀ m ∈ (handler env body headerCID).sentMessages,
          m.messageBody.receivedAt = env.now) := by
  intro h
  have heval : handler envIngestSmall "b" "" =
      ⟨202,
       [SendEventMessage "q"
          ⟨"id1", "uuid-c", payloadModeInline, some [7], "h", none, none, 1000⟩],
       []⟩ := by decide
  have hm := h envIngestSmall "b" ""
    (SendEventMessage "q" ⟨"id1", "uuid-c", payloadModeInline, some [7], "h", none, none, 1000⟩)
    (by rw [heval]; exact List.mem_singleton.mpr rfl)
  simp [SendEventMessage, envIngestSmall] at hm

/-- C9 amended: every successful submit enqueues exactly one queue message
carrying the assigned event id, the correlation id, the SHA-256 digest of
the canonical payload bytes, the disposition with its payload coordinates,
and `received_at` equal to the submitted event's own timestamp (not the
enqueue time); `{correlation_id, event_id}` are attached as transport-level
message attributes. -/
theorem sent_message_fields_amended
    (env : IngestEnv) (body headerCID : String) (ev0 : Event) (payloadBytes : Bytes)
    (hparse : env.parseBody body = some ev0)
    (hval : (withAssignedID env ev0).validate env.now = none)
    (hser : env.serialize (withAssignedID env ev0) = some payloadBytes)
    (hsend : env.sqsSendOk = true)
    (h202 : (handler env body headerCID).statusCode = 202) :
    ∃ msg : SQSEventMessage,
      (handler env body headerCID).sentMessages = [SendEventMessage env.queueURL msg] ∧
      msg.eventID = (withAssignedID env ev0).eventID ∧
      msg.correlationID = (if headerCID = "" then env.uuidCorrelationID else headerCID) ∧
      msg.payloadSHA256 = env.sha256Hex payloadBytes ∧
      msg.receivedAt = (withAssignedID env ev0).timestamp ∧
      (SendEventMessage env.queueURL msg).messageAttributes =
        [("correlation_id", msg.correlationID), ("event_id", msg.eventID)] ∧
      ((msg.payloadMode = payloadModeInline ∧ msg.payloadInline = some payloadBytes ∧
          msg.s3Key = none) ∨
        (msg.payloadMode = payloadModeS3 ∧ msg.payloadInline = none ∧
          msg.s3Key = some (s3ObjectKey env.dateStr (withAssignedID env ev0).eventID))) := by
  by_cases hs3 : ShouldUseS3 (List.length payloadBytes) = true
  · by_cases hput : env.s3PutOk = true
    · have heq : handler env body headerCID =
          ⟨202,
           [SendEventMessage env.queueURL
              ⟨(withAssignedID env ev0).eventID,
               (if headerCID = "" then env.uuidCorrelationID else headerCID),
               payloadModeS3, none, env.sha256Hex payloadBytes,
               some env.s3Bucket,
               some (s3ObjectKey env.dateStr (withAssignedID env ev0).eventID),
               (withAssignedID env ev0).timestamp⟩],
           [(s3ObjectKey env.dateStr (withAssignedID env ev0).eventID, payloadBytes)]⟩ := by
        simp [handler, hparse, hval, hser, hs3, hput, hsend]
      rw [heq]
      refine ⟨_, rfl, rfl, rfl, rfl, rfl, rfl, Or.inr ⟨rfl, rfl, rfl⟩⟩
    · exfalso
      have hput' : env.s3PutOk = false := by
        cases hb : env.s3PutOk
        · rfl
        · exact absurd hb hput
      have heq : handler env body headerCID = ⟨500, [], []⟩ := by
        simp [handler, hparse, hval, hser, hs3, hput']
      rw [heq] at h202
      simp at h202
  · have hs3' : ShouldUseS3 (List.length payloadBytes) = false := by
      cases hb : ShouldUseS3 (List.length payloadBytes)
      · rfl
      · exact absurd hb hs3
    have heq : handler env body headerCID =
        ⟨202,
         [SendEventMessage env.queueURL
            ⟨(withAssignedID env ev0).eventID,
             (if headerCID = "" then env.uuidCorrelationID else headerCID),
             payloadModeInline, some payloadBytes, env.sha256Hex payloadBytes,
             none, none, (withAssignedID env ev0).timestamp⟩],
         []⟩ := by
      simp [handler, hparse, hval, hser, hs3', hsend]
    rw [heq]
    refine ⟨_, rfl, rfl, rfl, rfl, rfl, rfl, Or.inl ⟨rfl, rfl, rfl⟩⟩

/-- Witness for C9 at a concrete successful submit (one-byte payload, wall
clock 0, event timestamp 1000). -/
theorem sent_message_fields_amended_witness :
    ∃ msg : SQSEventMessage,
      (handler envIngestSmall "b" "").sentMessages =
        [SendEventMessage envIngestSmall.queueURL msg] ∧
      msg.eventID = (withAssignedID envIngestSmall evSmall).eventID ∧
      msg.correlationID =
        (if ("" : String) = "" then envIngestSmall.uuidCorrelationID else "") ∧
      msg.payloadSHA256 = envIngestSmall.sha256Hex [7] ∧
      msg.receivedAt = (withAssignedID envIngestSmall evSmall).timestamp ∧
      (SendEventMessage envIngestSmall.queueURL msg).messageAttributes =
        [("correlation_id", msg.correlationID), ("event_id", msg.eventID)] ∧
      ((msg.payloadMode = payloadModeInline ∧ msg.payloadInline = some [7] ∧
          msg.s3Key = none) ∨
        (msg.payloadMode = payloadModeS3 ∧ msg.payloadInline = none ∧
          msg.s3Key =
            some (s3ObjectKey envIngestSmall.dateStr
              (withAssignedID envIngestSmall evSmall).eventID))) :=
  sent_message_fields_amended envIngestSmall "b" "" evSmall [7]
    rfl (by decide) rfl rfl (by decide)

end Fluxa
